import Mathlib

/-!
Verification development for the Ethereum anchor validator of js-ceramic
(packages/core/src/anchor/ethereum/ethereum-anchor-validator.ts) and the
conflict-resolution contract exercised by packages/cli tests.

The TypeScript class `EthereumAnchorValidator` is embedded shallowly:
its mutable instance fields become an explicit `ValidatorState` record,
every method becomes a pure Lean function threading that state, network
access is abstracted into an `Env` oracle, and each performed RPC call is
recorded in a trace list so that statements about "no network call" are
expressible.  JavaScript `null`/`undefined` results of provider fetches
are modelled with `Option`; thrown `Error`s become an `EthError` inductive
whose `message` function reproduces the thrown message strings.
JavaScript numbers produced by `parseInt(_, 16)` are modelled as the
exact values of the IEEE doubles `parseInt` returns: the mathematical
integer denoted by the digits, rounded once (half to even) to 53
significant bits, as `Option Nat` — `none` playing the role of `NaN` and
the canonical `2 ^ 1024` the role of `Infinity`.
-/

/-! ## Least-recently-used map (model of the `lru_map` npm dependency)

Modelled from the spec: the cache layer is provided by the external
`lru_map` package (not part of this repository's sources); the spec
describes it as a bounded map with strict least-recently-used eviction:
`get` marks the accessed entry most recently used, `set` inserts or
updates an entry as most recently used and, past capacity, evicts the
least recently used entry.  `entries` is kept most-recently-used first. -/

structure LRUMap (α β : Type) [DecidableEq α] where
  capacity : Nat
  entries : List (α × β)

instance {α β : Type} [DecidableEq α] [DecidableEq β] : DecidableEq (LRUMap α β) :=
  fun a b =>
    if h : a.capacity = b.capacity ∧ a.entries = b.entries then
      .isTrue (by cases a; cases b; simp_all)
    else
      .isFalse (fun hc => h (by cases hc; exact ⟨rfl, rfl⟩))

def LRUMap.get {α β : Type} [DecidableEq α] (m : LRUMap α β) (k : α) :
    Option β × LRUMap α β :=
  match m.entries.find? (fun e => e.1 = k) with
  | none => (none, m)
  | some e =>
    (some e.2, { m with entries := (k, e.2) :: m.entries.filter (fun e => e.1 ≠ k) })

def LRUMap.set {α β : Type} [DecidableEq α] (m : LRUMap α β) (k : α) (v : β) :
    LRUMap α β :=
  { m with entries := ((k, v) :: m.entries.filter (fun e => e.1 ≠ k)).take m.capacity }

def LRUMap.empty {α β : Type} [DecidableEq α] (capacity : Nat) : LRUMap α β :=
  { capacity := capacity, entries := [] }

/-! ## Ethereum data model (from ethereum-anchor-validator.ts) -/

/-- `EthNetwork` interface: Ethereum network configuration. -/
structure EthNetwork where
  network : String
  chain : String
  chainId : Nat
  networkId : Nat
  type : String
deriving DecidableEq

/-- `ETH_CHAIN_ID_MAPPINGS`: maps some Ethereum chain IDs to network
configuration (the static table of well-known networks). -/
def ETH_CHAIN_ID_MAPPINGS : List (String × EthNetwork) :=
  [ ("eip155:1", { network := "mainnet", chain := "ETH", chainId := 1, networkId := 1, type := "Production" }),
    ("eip155:3", { network := "ropsten", chain := "ETH", chainId := 3, networkId := 3, type := "Test" }),
    ("eip155:4", { network := "rinkeby", chain := "ETH", chainId := 4, networkId := 4, type := "Test" }) ]

def BASE_CHAIN_ID : String := "eip155"

def MAX_PROVIDERS_COUNT : Nat := 100

def TRANSACTION_CACHE_SIZE : Nat := 50

def BLOCK_CACHE_SIZE : Nat := 50

/-- An ethers.js provider handle, identified by how it was constructed
(`new JsonRpcProvider(endpoint)` or `getDefaultProvider(network)`). -/
inductive Provider
  | jsonRpc (endpoint : String)
  | defaultProvider (network : String)
deriving DecidableEq

/-- The fields of an ethers `TransactionResponse` that the validator reads. -/
structure Transaction where
  data : String
  blockHash : String
  blockNumber : Nat
deriving DecidableEq

/-- The field of an ethers `Block` that the validator reads. -/
structure Block where
  timestamp : Nat
deriving DecidableEq

/-- A CID as the validator consumes it: `hexDigest` is its `toString(base16)`
rendering without multibase prefix, `str` its default `toString()` rendering. -/
structure CidModel where
  hexDigest : String
  str : String
deriving DecidableEq

/-- `AnchorProof` wire shape.  `txHashDigestHex` is the base16 rendering of
the digest of the decoded `txHash` multihash (the source computes it with
`decode(proof.txHash.multihash.bytes)` and hex-encodes the digest). -/
structure AnchorProof where
  chainId : String
  txHashDigestHex : String
  root : CidModel
  blockNumber : Nat
  blockTimestamp : Nat
deriving DecidableEq

/-- The instance fields of `EthereumAnchorValidator`.  Transaction and block
caches store `Option` values because the JS code may `set` a `null` fetch
result into them. -/
structure ValidatorState where
  chainIdField : Option String
  providersCache : LRUMap String Provider
  transactionCache : LRUMap String (Option Transaction)
  blockCache : LRUMap String (Option Block)
deriving DecidableEq

/-- The constructor of `EthereumAnchorValidator`: three empty caches with
capacities `MAX_PROVIDERS_COUNT`, `TRANSACTION_CACHE_SIZE`,
`BLOCK_CACHE_SIZE`; `this._chainId` is left unassigned (`undefined`). -/
def mkValidatorState : ValidatorState :=
  { chainIdField := none
    providersCache := LRUMap.empty MAX_PROVIDERS_COUNT
    transactionCache := LRUMap.empty TRANSACTION_CACHE_SIZE
    blockCache := LRUMap.empty BLOCK_CACHE_SIZE }

/-- The thrown `Error`s of the validator, one constructor per `throw` site,
carrying exactly the data interpolated into the message. -/
inductive EthError
  | unsupportedNamespace (chain : String)
  | unsupportedConfigured (chain : String) (configured : String)
  | noProvider (chain : String)
  | txNotFoundTryEndpoint (txHash : String)
  | txNotFound (txHash : String)
  | blockNotFoundTryEndpoint (blockNumber : Nat) (blockHash : String)
  | blockNotFound (blockNumber : Nat) (blockHash : String)
  | rootNotInTx (rootStr : String)
  | blockNumberMismatch (proofBlockNumber : Nat) (txBlockNumber : Nat)
  | timestampMismatch (proofTimestamp : Nat) (blockTimestamp : Nat)
  | initChainMismatch (providerChain : String) (configured : Option String)
deriving DecidableEq

/-- A single quote character, kept out of string literals via its code. -/
def squote : String := "\x27"

/-- Renders what `undefined` interpolates as in a JS template literal. -/
def jsShow : Option String → String
  | none => "undefined"
  | some s => s

/-- The message of each thrown `Error`, as interpolated by the source. -/
def EthError.message : EthError → String
  | .unsupportedNamespace chain =>
    "Unsupported chainId " ++ squote ++ chain ++ squote ++ " - must be eip155 namespace"
  | .unsupportedConfigured chain configured =>
    "Unsupported chainId " ++ squote ++ chain ++ squote ++ ". Configured anchor service only supports " ++
      squote ++ configured ++ squote
  | .noProvider chain => "No ethereum provider available for chainId " ++ chain
  | .txNotFoundTryEndpoint txHash =>
    "Failed to load transaction data for transaction " ++ txHash ++
      ". Try providing an ethereum rpc endpoint"
  | .txNotFound txHash => "Failed to load transaction data for transaction " ++ txHash
  | .blockNotFoundTryEndpoint blockNumber blockHash =>
    "Failed to load transaction data for block with block number " ++ toString blockNumber ++
      " and block hash " ++ blockHash ++ ". Try providing an ethereum rpc endpoint"
  | .blockNotFound blockNumber blockHash =>
    "Failed to load transaction data for block with block number " ++ toString blockNumber ++
      " and block hash " ++ blockHash
  | .rootNotInTx rootStr => "The root CID " ++ rootStr ++ " is not in the transaction"
  | .blockNumberMismatch proofBlockNumber txBlockNumber =>
    "Block numbers are not the same. AnchorProof blockNumber: " ++ toString proofBlockNumber ++
      ", eth txn blockNumber: " ++ toString txBlockNumber
  | .timestampMismatch proofTimestamp blockTimestamp =>
    "Block timestamps are not the same. AnchorProof blockTimestamp: " ++ toString proofTimestamp ++
      ", eth txn blockTimestamp: " ++ toString blockTimestamp
  | .initChainMismatch providerChain configured =>
    "Configured eth provider is for chainId " ++ providerChain ++
      ", but our anchor service uses chain " ++ jsShow configured

/-- Network calls the validator can perform, recorded in a trace. -/
inductive RpcCall
  | getTransaction (txHash : String)
  | getBlock (blockHash : String)
  | getNetwork
deriving DecidableEq

/-- The network oracle: what the chain RPC endpoints answer.  `none`
models the provider returning `null` for a transaction or block. -/
structure Env where
  getTransaction : Provider → String → Option Transaction
  getBlock : Provider → String → Option Block
  getNetwork : Provider → Nat

/-- Structural `startsWith` on character lists (the core library's
`String.startsWith` is semantically identical but its byte-level loop does
not reduce inside the kernel). -/
def listStartsWith [DecidableEq α] : List α → List α → Bool
  | _, [] => true
  | [], _ :: _ => false
  | c :: cs, d :: ds => c = d && listStartsWith cs ds

/-- `s.startsWith(pre)` as JavaScript evaluates it. -/
def jsStartsWith (s pre : String) : Bool := listStartsWith s.toList pre.toList

instance {ε α : Type} [DecidableEq ε] [DecidableEq α] : DecidableEq (Except ε α) :=
  fun a b =>
    match a, b with
    | .ok x, .ok y =>
      if h : x = y then .isTrue (by rw [h]) else .isFalse (by simp [h])
    | .error x, .error y =>
      if h : x = y then .isTrue (by rw [h]) else .isFalse (by simp [h])
    | .ok _, .error _ => .isFalse (by simp)
    | .error _, .ok _ => .isFalse (by simp)

/-! ## JavaScript numeric parsing -/

def hexDigitVal (c : Char) : Option Nat :=
  if ('0' ≤ c ∧ c ≤ '9') then some (c.toNat - '0'.toNat)
  else if ('a' ≤ c ∧ c ≤ 'f') then some (c.toNat - 'a'.toNat + 10)
  else if ('A' ≤ c ∧ c ≤ 'F') then some (c.toNat - 'A'.toNat + 10)
  else none

/-- Accumulates the longest leading run of hex digits. -/
def takeHexVal : List Char → Nat → Nat
  | [], acc => acc
  | c :: cs, acc =>
    match hexDigitVal c with
    | some d => takeHexVal cs (acc * 16 + d)
    | none => acc

/-- Floor base-2 logarithm by fuel recursion (structural, so it reduces
inside the kernel); `fuel` must be at least the bit length of `n`. -/
def log2fuel : Nat → Nat → Nat
  | 0, _ => 0
  | fuel + 1, n => if n < 2 then 0 else log2fuel fuel (n / 2) + 1

/-- The boundary of the IEEE-754 double range, written as a decimal
literal so it evaluates cheaply inside the kernel; `DOUBLE_INF_eq` below
proves it equals `2 ^ 1024`. -/
def DOUBLE_INF : Nat := 179769313486231590772930519078902473361797697894230657273430081157732675805500963132708477322407536021120113879871393357658789768814416622492847430639474124377767893424865485276302219601246094119453082952085005768838150682342462881473913110540827237163350510684586298239947245938479716304835356329624224137216

/-- The value of the IEEE-754 double nearest to the natural `n` (round half
to even on a 53-bit significand), as an exact natural.  Everything at or
beyond the double range collapses to the canonical `DOUBLE_INF = 2 ^ 1024`,
which plays the role of `Infinity` — all overflowing values compare equal,
exactly as `Infinity === Infinity` does.  Below `2 ^ 53` the value is
itself; otherwise the low `e` bits are dropped, rounding to nearest with
ties to the even significand (a carry into `2 ^ 53` stays exactly
representable). -/
def roundToDouble (n : Nat) : Nat :=
  if DOUBLE_INF ≤ n then DOUBLE_INF
  else if n < 2 ^ 53 then n
  else
    let e := log2fuel 1024 n - 52
    let q := n / 2 ^ e
    let r := n % 2 ^ e
    let half := 2 ^ (e - 1)
    let q2 := if half < r ∨ (r = half ∧ q % 2 = 1) then q + 1 else q
    min (q2 * 2 ^ e) DOUBLE_INF

/-- The exact mathematical integer denoted by `s` in radix 16: strips an
optional `0x`/`0X` prefix, then takes the longest leading run of hex
digits; `none` when there is no digit at all.  This is the value before
IEEE rounding. -/
def parseInt16exact (s : String) : Option Nat :=
  let cs := s.toList
  let cs := if cs.take 2 = ['0', 'x'] ∨ cs.take 2 = ['0', 'X'] then cs.drop 2 else cs
  match cs with
  | [] => none
  | c :: _ =>
    match hexDigitVal c with
    | none => none
    | some _ => some (takeHexVal cs 0)

/-- `parseInt(s, 16)` as ECMAScript defines it: the exact mathematical
integer denoted by the digits, returned as the Number value for that
mathematical value — an IEEE double, i.e. rounded once to 53 significant
bits — with `none` modelling `NaN`. -/
def parseInt16 (s : String) : Option Nat :=
  (parseInt16exact s).map roundToDouble

/-- JavaScript `a !== b` on two `parseInt` results: `NaN !== x` is always
true, two numbers compare by value. -/
def jsStrictNeqNum : Option Nat → Option Nat → Bool
  | some a, some b => a != b
  | _, _ => true

/-! ## The validator's methods -/

/-- Result triple of an effectful method: outcome, post-state, RPC trace. -/
abbrev EthResult (α : Type) := Except EthError α × ValidatorState × List RpcCall

/-- `_getEthProvider(chain)`: consult the providers cache first; on a miss
check the `eip155` namespace prefix, then the configured fixed chain id,
then either build a `JsonRpcProvider` from the configured endpoint or look
the chain up in `ETH_CHAIN_ID_MAPPINGS` for a default provider.  Performs
no network call; when it throws, the state is unchanged. -/
def getEthProviderImpl (ethereumRpcEndpoint : String) (s : ValidatorState)
    (chain : String) : Except EthError (Provider × ValidatorState) :=
  match LRUMap.get s.providersCache chain with
  | (some fromCache, touched) => .ok (fromCache, { s with providersCache := touched })
  | (none, _) =>
    if ¬ jsStartsWith chain "eip155" then
      .error (.unsupportedNamespace chain)
    else
      match s.chainIdField with
      | some configured =>
        if configured ≠ chain then .error (.unsupportedConfigured chain configured)
        else getEthProviderBuild ethereumRpcEndpoint s chain
      | none => getEthProviderBuild ethereumRpcEndpoint s chain
where
  getEthProviderBuild (ethereumRpcEndpoint : String) (s : ValidatorState)
      (chain : String) : Except EthError (Provider × ValidatorState) :=
    if ethereumRpcEndpoint ≠ "" then
      let provider := Provider.jsonRpc ethereumRpcEndpoint
      .ok (provider, { s with providersCache := s.providersCache.set chain provider })
    else
      match ETH_CHAIN_ID_MAPPINGS.find? (fun e => e.1 = chain) with
      | none => .error (.noProvider chain)
      | some e =>
        let provider := Provider.defaultProvider e.2.network
        .ok (provider, { s with providersCache := s.providersCache.set chain provider })

/-- `init(chainId)`: a falsy chain id returns immediately; otherwise the
provider for that chain is resolved, its network queried, and the fixed
chain id recorded only when it matches the provider's network. -/
def init (env : Env) (ethereumRpcEndpoint : String) (s : ValidatorState)
    (chainId : Option String) : EthResult Unit :=
  match chainId with
  | none => (.ok (), s, [])
  | some cid =>
    if cid = "" then (.ok (), s, [])
    else
      match getEthProviderImpl ethereumRpcEndpoint s cid with
      | .error e => (.error e, s, [])
      | .ok (provider, s1) =>
        let idnum := env.getNetwork provider
        let providerChain := BASE_CHAIN_ID ++ ":" ++ toString idnum
        if cid ≠ providerChain then
          (.error (.initChainMismatch providerChain s1.chainIdField), s1, [.getNetwork])
        else
          (.ok (), { s1 with chainIdField := some cid }, [.getNetwork])

/-- `_getTransactionAndBlockInfo(chainId, txHash)`: resolve the provider,
read the transaction cache (a stored `null` is falsy, hence a miss), fetch
and unconditionally cache on a miss, throw if the fetched transaction is
null; then the same dance for the block keyed by the transaction's block
hash.  The "Try providing an ethereum rpc endpoint" variants are thrown
exactly when no endpoint is configured. -/
def getTransactionAndBlockInfo (env : Env) (ethereumRpcEndpoint : String)
    (s : ValidatorState) (chainId txHash : String) :
    EthResult (Transaction × Block) :=
  match getEthProviderImpl ethereumRpcEndpoint s chainId with
  | .error e => (.error e, s, [])
  | .ok (provider, s1) =>
    let (cachedTx, txTouched) := LRUMap.get s1.transactionCache txHash
    match cachedTx with
    | some (some transaction) =>
      getBlockPart env ethereumRpcEndpoint provider
        { s1 with transactionCache := txTouched } transaction []
    | _ =>
      let fetched := env.getTransaction provider txHash
      let s2 := { s1 with transactionCache := txTouched.set txHash fetched }
      match fetched with
      | none =>
        if ethereumRpcEndpoint = "" then
          (.error (.txNotFoundTryEndpoint txHash), s2, [.getTransaction txHash])
        else
          (.error (.txNotFound txHash), s2, [.getTransaction txHash])
      | some transaction =>
        getBlockPart env ethereumRpcEndpoint provider s2 transaction
          [.getTransaction txHash]
where
  /-- The block half: cache keyed by `transaction.blockHash`. -/
  getBlockPart (env : Env) (ethereumRpcEndpoint : String) (provider : Provider)
      (s : ValidatorState) (transaction : Transaction) (calls : List RpcCall) :
      EthResult (Transaction × Block) :=
    let (cachedBlock, blkTouched) := LRUMap.get s.blockCache transaction.blockHash
    match cachedBlock with
    | some (some block) =>
      (.ok (transaction, block), { s with blockCache := blkTouched }, calls)
    | _ =>
      let fetched := env.getBlock provider transaction.blockHash
      let s2 := { s with blockCache := blkTouched.set transaction.blockHash fetched }
      let calls2 := calls ++ [RpcCall.getBlock transaction.blockHash]
      match fetched with
      | none =>
        if ethereumRpcEndpoint = "" then
          (.error (.blockNotFoundTryEndpoint transaction.blockNumber transaction.blockHash),
            s2, calls2)
        else
          (.error (.blockNotFound transaction.blockNumber transaction.blockHash), s2, calls2)
      | some block => (.ok (transaction, block), s2, calls2)

/-- The hex transaction hash string the validator derives from the proof. -/
def proofTxHashString (proof : AnchorProof) : String :=
  "0x" ++ proof.txHashDigestHex

/-- `validateChainInclusion(anchorProof)`: fetch transaction and block,
compare `parseInt(transaction.data, 16)` with
`parseInt('0x' + root.toString(base16), 16)`, then the block numbers, then
the block timestamps, throwing a dedicated error at the first mismatch. -/
def validateChainInclusion (env : Env) (ethereumRpcEndpoint : String)
    (s : ValidatorState) (proof : AnchorProof) : EthResult Unit :=
  let txHash := proofTxHashString proof
  match getTransactionAndBlockInfo env ethereumRpcEndpoint s proof.chainId txHash with
  | (.error e, s1, calls) => (.error e, s1, calls)
  | (.ok (transaction, block), s1, calls) =>
    let txValueHexNumber := parseInt16 transaction.data
    let rootValueHexNumber := parseInt16 ("0x" ++ proof.root.hexDigest)
    if jsStrictNeqNum txValueHexNumber rootValueHexNumber then
      (.error (.rootNotInTx proof.root.str), s1, calls)
    else if proof.blockNumber != transaction.blockNumber then
      (.error (.blockNumberMismatch proof.blockNumber transaction.blockNumber), s1, calls)
    else if proof.blockTimestamp != block.timestamp then
      (.error (.timestampMismatch proof.blockTimestamp block.timestamp), s1, calls)
    else
      (.ok (), s1, calls)

/-! ## Conflict resolution (stream tip check)

Modelled from the spec: the `ConflictResolver` implementation
(packages/core conflict-resolution) is not among the given sources; only
its CLI test is.  Following spec section 4.1: a candidate commit is
accepted only if its declared previous-commit link equals the local tip's
address at evaluation time; otherwise it is rejected with the stale-tip
reason; anchor commits whose proof passed validation are accepted without
the link check; accepted commits append to the log, rejected ones leave
the state unchanged. -/

inductive Decision
  | accept
  | reject (reason : String)
  | fork
deriving DecidableEq

/-- One commit as conflict resolution sees it: its own content address,
its previous-commit link (`none` for genesis), and whether it is an anchor
commit whose `AnchorProof` already passed `validateChainInclusion`. -/
structure SpecCommit where
  address : Nat
  prev : Option Nat
  isAnchorWithValidProof : Bool
deriving DecidableEq

/-- The mutable state of one stream: its ordered log of applied commits. -/
structure StreamState where
  log : List SpecCommit
deriving DecidableEq

/-- The tip is the most recent commit in the log. -/
def StreamState.tip (s : StreamState) : Option SpecCommit := s.log.getLast?

/-- Modelled from the spec: the stale-tip rejection reason. -/
def staleTipReason : String := "stale tip: conflict resolution rejected the commit"

/-- Modelled from the spec: `resolve(localTip, candidateCommit)`. -/
def resolve (s : StreamState) (c : SpecCommit) : Decision :=
  if c.isAnchorWithValidProof then .accept
  else
    match s.tip with
    | some t => if c.prev = some t.address then .accept else .reject staleTipReason
    | none => .reject staleTipReason

/-- Modelled from the spec: an accepted commit appends to the log; a
rejected commit leaves the stream state unchanged. -/
def applyCommit (s : StreamState) (c : SpecCommit) : Decision × StreamState :=
  match resolve s c with
  | .accept => (.accept, { s with log := s.log ++ [c] })
  | d => (d, s)

/-! ## Concrete fixtures used by witnesses and counterexamples -/

/-- An environment whose provider finds no transaction and no block. -/
def envEmpty : Env :=
  { getTransaction := fun _ _ => none
    getBlock := fun _ _ => none
    getNetwork := fun _ => 1 }

/-- A fixed transaction whose data payload encodes the value 0xabc. -/
def txFixture : Transaction :=
  { data := "0x0abc", blockHash := "0xbh1", blockNumber := 7 }

/-- A fixed block. -/
def blockFixture : Block := { timestamp := 99 }

/-- An environment serving `txFixture` and `blockFixture` for every query. -/
def envFixture : Env :=
  { getTransaction := fun _ _ => some txFixture
    getBlock := fun _ _ => some blockFixture
    getNetwork := fun _ => 1 }

/-- An environment that serves the transaction but no block. -/
def envNoBlock : Env :=
  { getTransaction := fun _ _ => some txFixture
    getBlock := fun _ _ => none
    getNetwork := fun _ => 1 }

/-- A proof that matches `txFixture`/`blockFixture` exactly. -/
def proofFixture : AnchorProof :=
  { chainId := "eip155:1"
    txHashDigestHex := "dd"
    root := { hexDigest := "0abc", str := "bafyroot1" }
    blockNumber := 7
    blockTimestamp := 99 }

/-- Naive substring test on strings, via character lists. -/
def strContains (hay needle : String) : Bool :=
  let h := hay.toList
  let n := needle.toList
  (List.range (h.length + 1)).any (fun i => (h.drop i).take n.length = n)

/-- The fixture proof with a root whose numeric value disagrees with
`txFixture`'s data payload. -/
def proofBadRoot : AnchorProof :=
  { proofFixture with root := { hexDigest := "0def", str := "bafyroot1" } }

/-- A validator state whose providers cache holds a provider under a
non-eip155 chain key while a different fixed chain id is configured. -/
def sCachedForeign : ValidatorState :=
  { mkValidatorState with
    chainIdField := some "eip155:1"
    providersCache := { capacity := MAX_PROVIDERS_COUNT,
                        entries := [("foo:9", Provider.jsonRpc "x")] } }

/-- The state after resolving a provider for `eip155:1` against endpoint
`"e"` from a fresh validator. -/
def sAfterProvider : ValidatorState :=
  { mkValidatorState with
    providersCache := { capacity := MAX_PROVIDERS_COUNT,
                        entries := [("eip155:1", Provider.jsonRpc "e")] } }

/-- The state after resolving the default mainnet provider for `eip155:1`
with no endpoint configured, from a fresh validator. -/
def sDefaultProvider : ValidatorState :=
  { mkValidatorState with
    providersCache := { capacity := MAX_PROVIDERS_COUNT,
                        entries := [("eip155:1", Provider.defaultProvider "mainnet")] } }

/-- `sAfterProvider` with `txFixture` already cached under `"0xdead"`. -/
def sWithTx : ValidatorState :=
  { sAfterProvider with
    transactionCache := { capacity := TRANSACTION_CACHE_SIZE,
                          entries := [("0xdead", some txFixture)] } }

/-- The fixture proof with a wrong block number (tx fixture has 7). -/
def proofBadBn : AnchorProof := { proofFixture with blockNumber := 8 }

/-- The fixture proof with a wrong block timestamp (block fixture has 99). -/
def proofBadTs : AnchorProof := { proofFixture with blockTimestamp := 100 }

/-- A transaction whose 55-hex-digit data payload denotes exactly
`2 ^ 216` — digest-sized, i.e. far beyond 53-bit double precision. -/
def txBig : Transaction :=
  { data := "0x1000000000000000000000000000000000000000000000000000000", blockHash := "0xbh1", blockNumber := 7 }

/-- An environment serving `txBig` and `blockFixture` for every query. -/
def envBig : Env :=
  { getTransaction := fun _ _ => some txBig
    getBlock := fun _ _ => some blockFixture
    getNetwork := fun _ => 1 }

/-- A proof whose root denotes `2 ^ 216 + 1`: its exact value differs from
`txBig`'s payload in the last hex digit, below the top 53 bits. -/
def proofBig : AnchorProof :=
  { chainId := "eip155:1"
    txHashDigestHex := "dd"
    root := { hexDigest := "1000000000000000000000000000000000000000000000000000001", str := "bafybig1" }
    blockNumber := 7
    blockTimestamp := 99 }

/-- A two-entry, capacity-two cache used to witness the eviction theorem. -/
def lruFixture : LRUMap String Nat :=
  { capacity := 2, entries := [("a", 1), ("b", 2)] }

/-- A stream whose log holds a genesis commit and one anchor commit. -/
def streamFixture : StreamState :=
  { log := [ { address := 1, prev := none, isAnchorWithValidProof := false },
             { address := 2, prev := some 1, isAnchorWithValidProof := true } ] }

/-! ## Helper lemmas -/

theorem DOUBLE_INF_eq : DOUBLE_INF = 2 ^ 1024 := by
  rw [show (1024 : Nat) = 256 * 4 from rfl, pow_mul]
  norm_num [DOUBLE_INF]

theorem LRUMap.get_eq_none {α β : Type} [DecidableEq α] (m : LRUMap α β) (k : α)
    (h : k ∉ m.entries.map Prod.fst) : LRUMap.get m k = (none, m) := by
  have hfind : m.entries.find? (fun e => e.1 = k) = none := by
    rw [List.find?_eq_none]
    intro e he
    simp only [decide_eq_true_eq]
    intro hek
    exact h (by simpa [hek] using List.mem_map_of_mem Prod.fst he)
  simp [LRUMap.get, hfind]

theorem LRUMap.get_capacity {α β : Type} [DecidableEq α] (m : LRUMap α β) (k : α) :
    ((LRUMap.get m k).2).capacity = m.capacity := by
  unfold LRUMap.get
  split <;> rfl

theorem LRUMap.set_capacity {α β : Type} [DecidableEq α] (m : LRUMap α β) (k : α) (v : β) :
    ((LRUMap.set m k v)).capacity = m.capacity := rfl

theorem LRUMap.get_set_self {α β : Type} [DecidableEq α] (m : LRUMap α β) (k : α) (v : β)
    (hcap : 0 < m.capacity) : ((LRUMap.set m k v).get k).1 = some v := by
  obtain ⟨n, hn⟩ : ∃ n, m.capacity = n + 1 := ⟨m.capacity - 1, by omega⟩
  simp [LRUMap.set, LRUMap.get, hn]

/-- In a list of pairs with pairwise distinct keys, `find?` on a key
returns the unique pair carrying it. -/
theorem find?_key_of_nodup {α β : Type} [DecidableEq α] (l : List (α × β)) (e : α × β)
    (hnodup : (l.map Prod.fst).Nodup) (he : e ∈ l) :
    l.find? (fun x => x.1 = e.1) = some e := by
  induction l with
  | nil => cases he
  | cons a l ih =>
    rcases List.mem_cons.mp he with rfl | hmem
    · simp [List.find?]
    · have hka : a.1 ≠ e.1 := by
        intro hcontra
        have : e.1 ∈ l.map Prod.fst := List.mem_map_of_mem Prod.fst hmem
        rw [← hcontra] at this
        exact (List.nodup_cons.mp hnodup).1 this
      have := ih (List.nodup_cons.mp hnodup).2 hmem
      simp [List.find?, hka, this]

/-- A provider-resolution error makes the combined fetch fail with the
same error, leaving the state untouched and performing no RPC call. -/
theorem getTxBlockInfo_provider_error (env : Env) (ep : String) (s : ValidatorState)
    (chainId txHash : String) (e : EthError)
    (h : getEthProviderImpl ep s chainId = .error e) :
    getTransactionAndBlockInfo env ep s chainId txHash = (.error e, s, []) := by
  simp [getTransactionAndBlockInfo, h]

/-- A fetch error propagates through `validateChainInclusion` unchanged. -/
theorem validate_provider_error (env : Env) (ep : String) (s : ValidatorState)
    (proof : AnchorProof) (e : EthError)
    (h : getEthProviderImpl ep s proof.chainId = .error e) :
    validateChainInclusion env ep s proof = (.error e, s, []) := by
  simp [validateChainInclusion, getTxBlockInfo_provider_error env ep s proof.chainId
    (proofTxHashString proof) e h]

/-- On a providers-cache miss with a configured fixed chain id different
from the requested chain, provider resolution throws (either the namespace
error or the configured-chain error) without touching the state. -/
theorem getEthProvider_error_of_mismatch (ep : String) (s : ValidatorState)
    (chain c : String)
    (hmiss : (LRUMap.get s.providersCache chain).1 = none)
    (hcfg : s.chainIdField = some c) (hne : c ≠ chain) :
    ∃ e, getEthProviderImpl ep s chain = .error e := by
  rcases hh : LRUMap.get s.providersCache chain with ⟨o, t⟩
  rw [hh] at hmiss
  simp only at hmiss
  subst hmiss
  by_cases hns : jsStartsWith chain "eip155"
  · exact ⟨.unsupportedConfigured chain c, by simp [getEthProviderImpl, hh, hns, hcfg, hne]⟩
  · exact ⟨.unsupportedNamespace chain, by simp [getEthProviderImpl, hh, hns]⟩

/-! ## Claim theorems -/

/-- C9: calling `init` with a null chain id always succeeds, performs no
network call and no cache or state mutation (so the configured chain id —
`none` on a freshly constructed validator — stays unset and later
validations are not pinned to a single chain). -/
theorem init_null_is_noop (env : Env) (ep : String) (s : ValidatorState) :
    init env ep s none = (.ok (), s, []) ∧ mkValidatorState.chainIdField = none :=
  ⟨rfl, rfl⟩

/-- C10: a providers-cache hit short-circuits `_getEthProvider`: the cached
provider is returned (recency refreshed), no error can be thrown, and the
eip155-namespace check and the configured-fixed-chain-id check are never
reached for that identifier. -/
theorem getEthProvider_cache_hit (ep : String) (s : ValidatorState) (chain : String)
    (p : Provider) (h : (LRUMap.get s.providersCache chain).1 = some p) :
    getEthProviderImpl ep s chain =
      .ok (p, { s with providersCache := (LRUMap.get s.providersCache chain).2 }) := by
  rcases hh : LRUMap.get s.providersCache chain with ⟨o, t⟩
  rw [hh] at h
  simp only at h
  subst h
  simp [getEthProviderImpl, hh]

theorem getEthProvider_cache_hit_witness :
    getEthProviderImpl "" sCachedForeign "foo:9" =
      .ok (Provider.jsonRpc "x",
        { sCachedForeign with
          providersCache := (LRUMap.get sCachedForeign.providersCache "foo:9").2 }) :=
  getEthProvider_cache_hit "" sCachedForeign "foo:9" (Provider.jsonRpc "x") (by decide)

/-- C7: a stream at tip `T` rejects an update commit whose previous-link
names an address other than `T`'s with the stale-tip conflict-resolution
rejection, and the log length is unchanged by the rejected update. -/
theorem conflict_stale_tip (s : StreamState) (c T : SpecCommit) (t' : Nat)
    (htip : s.tip = some T) (hanchor : c.isAnchorWithValidProof = false)
    (hprev : c.prev = some t') (hne : t' ≠ T.address) :
    applyCommit s c = (.reject staleTipReason, s) ∧
      (applyCommit s c).2.log.length = s.log.length := by
  have hres : resolve s c = .reject staleTipReason := by
    simp [resolve, hanchor, htip, hprev, hne]
  exact ⟨by simp [applyCommit, hres], by simp [applyCommit, hres]⟩

theorem conflict_stale_tip_witness :
    applyCommit streamFixture { address := 3, prev := some 1, isAnchorWithValidProof := false } =
      (.reject staleTipReason, streamFixture) ∧
    (applyCommit streamFixture
        { address := 3, prev := some 1, isAnchorWithValidProof := false }).2.log.length =
      streamFixture.log.length :=
  conflict_stale_tip streamFixture
    { address := 3, prev := some 1, isAnchorWithValidProof := false }
    { address := 2, prev := some 1, isAnchorWithValidProof := true } 1
    (by decide) rfl rfl (by decide)

/-- C1 (amended): when the transaction and block fetched for the proof's
chain id and transaction hash are `tx` and `block`, and both the
transaction's data payload and the proof's root parse to JS numbers,
`validateChainInclusion` succeeds iff the two parsed values are equal as
IEEE doubles (`parseInt16` rounds the exact radix-16 value once to 53
significant bits, as ECMAScript `parseInt` does), the proof's block number
equals the transaction's block number, and the proof's block timestamp
equals the block's timestamp.  A mismatch visible at double precision
makes the call fail, but exact values differing only below the top 53
bits of digest-sized payloads compare equal and validate — see the
counterexample. -/
theorem validateChainInclusion_ok_iff (env : Env) (ep : String) (s : ValidatorState)
    (proof : AnchorProof) (tx : Transaction) (block : Block) (tv rv : Nat)
    (hfetch : (getTransactionAndBlockInfo env ep s proof.chainId
      (proofTxHashString proof)).1 = .ok (tx, block))
    (htx : parseInt16 tx.data = some tv)
    (hroot : parseInt16 ("0x" ++ proof.root.hexDigest) = some rv) :
    (validateChainInclusion env ep s proof).1 = .ok () ↔
      (tv = rv ∧ proof.blockNumber = tx.blockNumber ∧
        proof.blockTimestamp = block.timestamp) := by
  rcases hh : getTransactionAndBlockInfo env ep s proof.chainId (proofTxHashString proof)
    with ⟨r, s1, calls⟩
  rw [hh] at hfetch
  simp only at hfetch
  subst hfetch
  simp only [validateChainInclusion, hh]
  simp only [htx, hroot, jsStrictNeqNum]
  by_cases h1 : tv = rv <;> by_cases h2 : proof.blockNumber = tx.blockNumber <;>
    by_cases h3 : proof.blockTimestamp = block.timestamp <;>
    simp [h1, h2, h3]

theorem validateChainInclusion_ok_iff_witness :
    (validateChainInclusion envFixture "e" mkValidatorState proofFixture).1 = .ok () :=
  (validateChainInclusion_ok_iff envFixture "e" mkValidatorState proofFixture txFixture
    blockFixture 2748 2748 (by decide) (by decide) (by decide)).mpr ⟨rfl, rfl, rfl⟩

set_option maxRecDepth 4000 in
/-- C1 counterexample: the transaction payload of `txBig` denotes exactly
`2 ^ 216` while `proofBig`'s root denotes `2 ^ 216 + 1` — two different
numeric values — yet `validateChainInclusion` succeeds, because JS
`parseInt` returns IEEE doubles and both values round to the same double
(they differ below the top 53 bits).  This refutes the claim's "any
mismatch makes the call fail" direction for exact numeric values. -/
theorem root_precision_counterexample :
    (validateChainInclusion envBig "e" mkValidatorState proofBig).1 = .ok () ∧
    parseInt16exact txBig.data ≠
      parseInt16exact ("0x" ++ proofBig.root.hexDigest) := by decide

/-- After a successful provider resolution from a freshly constructed
validator, the chain id field is still unset and the providers cache holds
exactly the requested chain. -/
theorem getEthProvider_ok_mkState (ep c : String) (p : Provider) (s1 : ValidatorState)
    (h : getEthProviderImpl ep mkValidatorState c = .ok (p, s1)) :
    s1.chainIdField = none ∧ s1.providersCache.entries.map Prod.fst = [c] := by
  unfold getEthProviderImpl at h
  simp only [mkValidatorState, LRUMap.empty, LRUMap.get, List.find?_nil] at h
  split at h
  · exact absurd h (by simp)
  · unfold getEthProviderImpl.getEthProviderBuild at h
    split at h
    · injection h with h'
      injection h' with hp hs
      subst hs
      simp [LRUMap.set, MAX_PROVIDERS_COUNT]
    · split at h
      · exact absurd h (by simp)
      · injection h with h'
        injection h' with hp hs
        subst hs
        simp [LRUMap.set, MAX_PROVIDERS_COUNT]

/-- After a successful `init` with chain id `c` on a freshly constructed
validator, the fixed chain id is `c` and the providers cache holds exactly
the provider for `c`. -/
theorem init_ok_facts (env : Env) (ep c : String) (hc : c ≠ "")
    (hinit : (init env ep mkValidatorState (some c)).1 = .ok ()) :
    (init env ep mkValidatorState (some c)).2.1.chainIdField = some c ∧
    (init env ep mkValidatorState (some c)).2.1.providersCache.entries.map Prod.fst = [c] := by
  simp only [init] at hinit ⊢
  rw [if_neg hc] at hinit ⊢
  rcases hgp : getEthProviderImpl ep mkValidatorState c with e | pr
  · rw [hgp] at hinit
    simp at hinit
  · rcases pr with ⟨p, s1⟩
    rw [hgp] at hinit
    dsimp only at hinit ⊢
    by_cases hpc : c ≠ BASE_CHAIN_ID ++ ":" ++ toString (env.getNetwork p)
    · simp [hpc] at hinit
    · have hkeys := (getEthProvider_ok_mkState ep c p s1 hgp).2
      simp [hpc, hkeys]

/-- C4: when the validator was configured with a fixed chain id `c` at
`init` time (starting from a fresh construction), `validateChainInclusion`
for any proof whose chain id differs from `c` fails immediately: it throws,
leaves the state unchanged, and its RPC-call trace is empty (no transaction
or block fetch is attempted). -/
theorem validate_wrong_chain_no_network (env : Env) (ep c : String) (proof : AnchorProof)
    (hc : c ≠ "")
    (hinit : (init env ep mkValidatorState (some c)).1 = .ok ())
    (hneq : proof.chainId ≠ c) :
    ∃ e, validateChainInclusion env ep (init env ep mkValidatorState (some c)).2.1 proof =
      (.error e, (init env ep mkValidatorState (some c)).2.1, []) := by
  obtain ⟨hcfg, hkeys⟩ := init_ok_facts env ep c hc hinit
  have hmem : proof.chainId ∉ ((init env ep mkValidatorState (some c)).2.1).providersCache.entries.map Prod.fst := by
    rw [hkeys]; simp [hneq]
  have hmiss : (LRUMap.get ((init env ep mkValidatorState (some c)).2.1).providersCache proof.chainId).1 = none := by
    rw [LRUMap.get_eq_none _ _ hmem]
  obtain ⟨e, he⟩ := getEthProvider_error_of_mismatch ep _ proof.chainId c hmiss hcfg
    (fun hh => hneq hh.symm)
  exact ⟨e, validate_provider_error env ep _ proof e he⟩

theorem validate_wrong_chain_no_network_witness :
    ∃ e, validateChainInclusion envFixture "http"
        (init envFixture "http" mkValidatorState (some "eip155:1")).2.1
        { proofFixture with chainId := "eip155:3" } =
      (.error e, (init envFixture "http" mkValidatorState (some "eip155:1")).2.1, []) :=
  validate_wrong_chain_no_network envFixture "http" "eip155:1"
    { proofFixture with chainId := "eip155:3" } (by decide) (by decide) (by decide)

/-- C8: the validator constructs its three caches with fixed capacities
100 (providers), 50 (transactions) and 50 (blocks); and for any such cache
at full capacity with pairwise-distinct keys, inserting a fresh entry
evicts exactly the least-recently-touched entry (the last in recency
order): the evicted key is no longer retrievable while the new entry and
the other surviving entries all remain retrievable, and the entry count
stays at the capacity bound. -/
theorem lru_bounded_eviction {β : Type} (m : LRUMap String β) (k : String) (v : β)
    (last : String × β)
    (hcap : 0 < m.capacity)
    (hfull : m.entries.length = m.capacity)
    (hnodup : (m.entries.map Prod.fst).Nodup)
    (hfresh : k ∉ m.entries.map Prod.fst)
    (hlast : m.entries.getLast? = some last) :
    mkValidatorState.providersCache.capacity = 100 ∧
    mkValidatorState.transactionCache.capacity = 50 ∧
    mkValidatorState.blockCache.capacity = 50 ∧
    (LRUMap.set m k v).entries = (k, v) :: m.entries.dropLast ∧
    (LRUMap.set m k v).entries.length = m.capacity ∧
    ((LRUMap.set m k v).get last.1).1 = none ∧
    ((LRUMap.set m k v).get k).1 = some v ∧
    ∀ e ∈ m.entries.dropLast, ((LRUMap.set m k v).get e.1).1 = some e.2 := by
  have hne : m.entries ≠ [] := by
    intro hcontra
    rw [hcontra] at hfull
    simp at hfull
    omega
  have hdecomp : m.entries.dropLast ++ [m.entries.getLast hne] = m.entries :=
    List.dropLast_append_getLast hne
  have hlast' : m.entries.getLast hne = last := by
    have := List.getLast?_eq_getLast m.entries hne
    rw [this] at hlast
    exact Option.some_injective _ hlast
  rw [hlast'] at hdecomp
  have hkeys : m.entries.map Prod.fst = m.entries.dropLast.map Prod.fst ++ [last.1] := by
    conv_lhs => rw [← hdecomp]
    simp
  have hnodupDL : (m.entries.dropLast.map Prod.fst).Nodup := by
    rw [hkeys] at hnodup
    exact (List.nodup_append.mp hnodup).1
  have hlastNotDL : last.1 ∉ m.entries.dropLast.map Prod.fst := by
    rw [hkeys] at hnodup
    intro hmem
    exact (List.nodup_append.mp hnodup).2.2 hmem (List.mem_singleton.mpr rfl)
  have hfilter : m.entries.filter (fun e => e.1 ≠ k) = m.entries := by
    rw [List.filter_eq_self]
    intro a ha
    simp only [decide_eq_true_eq, ne_eq, decide_not]
    simp only [Bool.not_eq_true']
    rw [decide_eq_false_iff_not]
    intro hcontra
    exact hfresh (hcontra ▸ List.mem_map_of_mem Prod.fst ha)
  have hset : (LRUMap.set m k v).entries = (k, v) :: m.entries.dropLast := by
    obtain ⟨n, hn⟩ : ∃ n, m.capacity = n + 1 := ⟨m.capacity - 1, by omega⟩
    simp only [LRUMap.set, hfilter, hn, List.take_succ_cons]
    rw [List.dropLast_eq_take, hfull, hn]
    simp
  have hlen : (LRUMap.set m k v).entries.length = m.capacity := by
    rw [hset]
    simp [List.length_dropLast]
    omega
  have hkNotLast : k ≠ last.1 := by
    intro hcontra
    apply hfresh
    rw [hkeys, hcontra]
    simp
  have hevict : ((LRUMap.set m k v).get last.1).1 = none := by
    have : last.1 ∉ (LRUMap.set m k v).entries.map Prod.fst := by
      rw [hset]
      simp only [List.map_cons, List.mem_cons]
      rintro (hcontra | hcontra)
      · exact hkNotLast hcontra.symm
      · exact hlastNotDL hcontra
    rw [LRUMap.get_eq_none _ _ this]
  have hgetK : ((LRUMap.set m k v).get k).1 = some v :=
    LRUMap.get_set_self m k v hcap
  refine ⟨rfl, rfl, rfl, hset, hlen, hevict, hgetK, ?_⟩
  intro e he
  have hmem : e ∈ m.entries := (List.dropLast_sublist m.entries).subset he
  have hke : ¬ (k = e.1) := by
    intro hcontra
    exact hfresh (hcontra ▸ List.mem_map_of_mem Prod.fst hmem)
  have hfind : ((k, v) :: m.entries.dropLast).find? (fun x => x.1 = e.1) = some e := by
    rw [List.find?_cons]
    have : (decide ((k, v).1 = e.1)) = false := by
      simpa using hke
    rw [this]
    exact find?_key_of_nodup m.entries.dropLast e hnodupDL he
  simp [LRUMap.get, hset, hfind]

theorem lru_bounded_eviction_witness :
    mkValidatorState.providersCache.capacity = 100 ∧
    mkValidatorState.transactionCache.capacity = 50 ∧
    mkValidatorState.blockCache.capacity = 50 ∧
    (LRUMap.set lruFixture "c" 3).entries = ("c", 3) :: lruFixture.entries.dropLast ∧
    (LRUMap.set lruFixture "c" 3).entries.length = lruFixture.capacity ∧
    ((LRUMap.set lruFixture "c" 3).get ("b", 2).1).1 = none ∧
    ((LRUMap.set lruFixture "c" 3).get "c").1 = some 3 ∧
    ∀ e ∈ lruFixture.entries.dropLast, ((LRUMap.set lruFixture "c" 3).get e.1).1 = some e.2 :=
  lru_bounded_eviction lruFixture "c" 3 ("b", 2) (by decide) (by decide) (by decide)
    (by decide) (by decide)

theorem null_cached_tx_case (env : Env) (ep : String) (s : ValidatorState)
    (chainId txHash : String) (p : Provider) (s1 : ValidatorState)
    (hp : getEthProviderImpl ep s chainId = .ok (p, s1))
    (hcap : 0 < s1.transactionCache.capacity)
    (hmiss : (LRUMap.get s1.transactionCache txHash).1 = none ∨
      (LRUMap.get s1.transactionCache txHash).1 = some none)
    (hfetch : env.getTransaction p txHash = none) :
    (∃ e, (getTransactionAndBlockInfo env ep s chainId txHash).1 = .error e) ∧
    (LRUMap.get
      (getTransactionAndBlockInfo env ep s chainId txHash).2.1.transactionCache txHash).1 =
      some none ∧
    (getTransactionAndBlockInfo env ep s chainId txHash).2.2 = [.getTransaction txHash] := by
  rcases hg : LRUMap.get s1.transactionCache txHash with ⟨o, touched⟩
  have hcap2 : 0 < touched.capacity := by
    have h2 := LRUMap.get_capacity s1.transactionCache txHash
    rw [hg] at h2
    simp only at h2
    rw [h2]
    exact hcap
  rw [hg] at hmiss
  simp only at hmiss
  have hsetnone : (LRUMap.get (LRUMap.set touched txHash none) txHash).1 = some none :=
    LRUMap.get_set_self touched txHash none hcap2
  rcases hmiss with rfl | rfl <;>
  · simp only [getTransactionAndBlockInfo, hp, hg]
    rw [hfetch]
    by_cases hep : ep = "" <;> simp [hep, hsetnone]

theorem null_cached_block_case (env : Env) (ep : String) (s : ValidatorState)
    (chainId txHash : String) (p : Provider) (s1 : ValidatorState) (tx : Transaction)
    (hp : getEthProviderImpl ep s chainId = .ok (p, s1))
    (hcap : 0 < s1.blockCache.capacity)
    (htx : (LRUMap.get s1.transactionCache txHash).1 = some (some tx))
    (hmiss : (LRUMap.get s1.blockCache tx.blockHash).1 = none ∨
      (LRUMap.get s1.blockCache tx.blockHash).1 = some none)
    (hfetch : env.getBlock p tx.blockHash = none) :
    (∃ e, (getTransactionAndBlockInfo env ep s chainId txHash).1 = .error e) ∧
    (LRUMap.get
      (getTransactionAndBlockInfo env ep s chainId txHash).2.1.blockCache tx.blockHash).1 =
      some none ∧
    (getTransactionAndBlockInfo env ep s chainId txHash).2.2 = [.getBlock tx.blockHash] := by
  rcases hg : LRUMap.get s1.transactionCache txHash with ⟨o, txTouched⟩
  rw [hg] at htx
  simp only at htx
  subst htx
  rcases hgb : LRUMap.get s1.blockCache tx.blockHash with ⟨ob, blkTouched⟩
  have hcap2 : 0 < blkTouched.capacity := by
    have h2 := LRUMap.get_capacity s1.blockCache tx.blockHash
    rw [hgb] at h2
    simp only at h2
    rw [h2]
    exact hcap
  rw [hgb] at hmiss
  simp only at hmiss
  have hsetnone : (LRUMap.get (LRUMap.set blkTouched tx.blockHash none) tx.blockHash).1 =
      some none :=
    LRUMap.get_set_self blkTouched tx.blockHash none hcap2
  rcases hmiss with rfl | rfl <;>
  · simp only [getTransactionAndBlockInfo, hp, hg, getTransactionAndBlockInfo.getBlockPart, hgb]
    rw [hfetch]
    by_cases hep : ep = "" <;> simp [hep, hsetnone]

/-- C2 counterexample: from a fresh validator with no endpoint, a provider
returning a null transaction makes `_getTransactionAndBlockInfo` throw, yet
the transaction cache now holds an entry for the failed key `"0xdead"`; a
null block likewise leaves a block-cache entry for the failed block hash.
This refutes the claim that nothing is cached on failure. -/
theorem cache_on_failure_counterexample :
    (getTransactionAndBlockInfo envEmpty "" mkValidatorState "eip155:1" "0xdead").1 =
      .error (.txNotFoundTryEndpoint "0xdead") ∧
    (getTransactionAndBlockInfo envEmpty "" mkValidatorState
        "eip155:1" "0xdead").2.1.transactionCache.entries.map Prod.fst = ["0xdead"] ∧
    (getTransactionAndBlockInfo envNoBlock "" mkValidatorState "eip155:1" "0xdead").1 =
      .error (.blockNotFoundTryEndpoint 7 "0xbh1") ∧
    (getTransactionAndBlockInfo envNoBlock "" mkValidatorState
        "eip155:1" "0xdead").2.1.blockCache.entries.map Prod.fst = ["0xbh1"] := by decide

/-- C2 (amended): when the provider returns an empty (null) transaction or
block, `_getTransactionAndBlockInfo` throws, but it first stores the null
result in the corresponding cache under the failed key (the `set` precedes
the null check), so the cache does gain an entry for that key; the stored
null is never served as a hit — the fetch in the failing call is still
performed (the RPC trace shows it), and a later lookup of the same key
falls into the same refetch path because a cached null is falsy. -/
theorem null_cached_on_failed_fetch (env : Env) (ep : String) (s : ValidatorState)
    (chainId txHash : String) :
    (∀ p s1, getEthProviderImpl ep s chainId = .ok (p, s1) →
      0 < s1.transactionCache.capacity →
      ((LRUMap.get s1.transactionCache txHash).1 = none ∨
        (LRUMap.get s1.transactionCache txHash).1 = some none) →
      env.getTransaction p txHash = none →
      (∃ e, (getTransactionAndBlockInfo env ep s chainId txHash).1 = .error e) ∧
      (LRUMap.get
        (getTransactionAndBlockInfo env ep s chainId txHash).2.1.transactionCache txHash).1 =
        some none ∧
      (getTransactionAndBlockInfo env ep s chainId txHash).2.2 = [.getTransaction txHash]) ∧
    (∀ p s1 tx, getEthProviderImpl ep s chainId = .ok (p, s1) →
      0 < s1.blockCache.capacity →
      (LRUMap.get s1.transactionCache txHash).1 = some (some tx) →
      ((LRUMap.get s1.blockCache tx.blockHash).1 = none ∨
        (LRUMap.get s1.blockCache tx.blockHash).1 = some none) →
      env.getBlock p tx.blockHash = none →
      (∃ e, (getTransactionAndBlockInfo env ep s chainId txHash).1 = .error e) ∧
      (LRUMap.get
        (getTransactionAndBlockInfo env ep s chainId txHash).2.1.blockCache tx.blockHash).1 =
        some none ∧
      (getTransactionAndBlockInfo env ep s chainId txHash).2.2 = [.getBlock tx.blockHash]) :=
  ⟨fun p s1 hp hcap hmiss hfetch =>
      null_cached_tx_case env ep s chainId txHash p s1 hp hcap hmiss hfetch,
fun p s1 tx hp hcap htx hmiss hfetch =>
      null_cached_block_case env ep s chainId txHash p s1 tx hp hcap htx hmiss hfetch⟩

theorem null_cached_on_failed_fetch_witness :
    ((∃ e, (getTransactionAndBlockInfo envEmpty "" mkValidatorState "eip155:1" "0xdead").1 =
        .error e) ∧
      (LRUMap.get (getTransactionAndBlockInfo envEmpty "" mkValidatorState
          "eip155:1" "0xdead").2.1.transactionCache "0xdead").1 = some none ∧
      (getTransactionAndBlockInfo envEmpty "" mkValidatorState "eip155:1" "0xdead").2.2 =
        [.getTransaction "0xdead"]) ∧
    ((∃ e, (getTransactionAndBlockInfo envNoBlock "e" sWithTx "eip155:1" "0xdead").1 =
        .error e) ∧
      (LRUMap.get (getTransactionAndBlockInfo envNoBlock "e" sWithTx
          "eip155:1" "0xdead").2.1.blockCache txFixture.blockHash).1 = some none ∧
      (getTransactionAndBlockInfo envNoBlock "e" sWithTx "eip155:1" "0xdead").2.2 =
        [.getBlock txFixture.blockHash]) :=
  ⟨(null_cached_on_failed_fetch envEmpty "" mkValidatorState "eip155:1" "0xdead").1
      (Provider.defaultProvider "mainnet") sDefaultProvider (by decide) (by decide)
      (Or.inl (by decide)) rfl,
    (null_cached_on_failed_fetch envNoBlock "e" sWithTx "eip155:1" "0xdead").2
      (Provider.jsonRpc "e") sWithTx txFixture (by decide) (by decide) (by decide)
      (Or.inl (by decide)) rfl⟩

theorem strContains_of_parts (hay needle : String) (x y : List Char)
    (h : hay.toList = x ++ (needle.toList ++ y)) : strContains hay needle = true := by
  unfold strContains
  rw [List.any_eq_true]
  refine ⟨x.length, ?_, ?_⟩
  · rw [List.mem_range]
    have hlen : hay.toList.length = x.length + (needle.toList.length + y.length) := by
      rw [h]; simp
    omega
  · have hdrop : hay.toList.drop x.length = needle.toList ++ y := by
      rw [h, List.drop_left]
    rw [decide_eq_true_eq, hdrop, List.take_left]

theorem strContains_append_right (p q needle : String) (z y : List Char)
    (hq : q.data = z ++ (needle.data ++ y)) : strContains (p ++ q) needle = true := by
  apply strContains_of_parts _ _ (p.data ++ z) y
  show (p ++ q).data = (p.data ++ z) ++ (needle.data ++ y)
  rw [String.data_append, hq, List.append_assoc]

theorem suggestion_in_txNotFoundTryEndpoint (txHash : String) :
    strContains (EthError.txNotFoundTryEndpoint txHash).message
      "Try providing an ethereum rpc endpoint" = true := by
  apply strContains_append_right _ _ _ ['.', ' '] []
  decide

theorem suggestion_in_blockNotFoundTryEndpoint (blockNumber : Nat) (blockHash : String) :
    strContains (EthError.blockNotFoundTryEndpoint blockNumber blockHash).message
      "Try providing an ethereum rpc endpoint" = true := by
  apply strContains_append_right _ _ _ ['.', ' '] []
  decide

theorem txNotFound_error_case (env : Env) (ep : String) (s : ValidatorState)
    (chainId txHash : String) (p : Provider) (s1 : ValidatorState)
    (hp : getEthProviderImpl ep s chainId = .ok (p, s1))
    (hmiss : (LRUMap.get s1.transactionCache txHash).1 = none ∨
      (LRUMap.get s1.transactionCache txHash).1 = some none)
    (hfetch : env.getTransaction p txHash = none) :
    (ep = "" →
      (getTransactionAndBlockInfo env ep s chainId txHash).1 =
        .error (.txNotFoundTryEndpoint txHash)) ∧
    (ep ≠ "" →
      (getTransactionAndBlockInfo env ep s chainId txHash).1 = .error (.txNotFound txHash)) := by
  rcases hg : LRUMap.get s1.transactionCache txHash with ⟨o, touched⟩
  rw [hg] at hmiss
  simp only at hmiss
  rcases hmiss with rfl | rfl <;>
  · constructor <;> intro hep <;>
    · simp only [getTransactionAndBlockInfo, hp, hg]
      rw [hfetch]
      simp [hep]

theorem blockNotFound_error_case (env : Env) (ep : String) (s : ValidatorState)
    (chainId txHash : String) (p : Provider) (s1 : ValidatorState) (tx : Transaction)
    (hp : getEthProviderImpl ep s chainId = .ok (p, s1))
    (htx : (LRUMap.get s1.transactionCache txHash).1 = some (some tx))
    (hmiss : (LRUMap.get s1.blockCache tx.blockHash).1 = none ∨
      (LRUMap.get s1.blockCache tx.blockHash).1 = some none)
    (hfetch : env.getBlock p tx.blockHash = none) :
    (ep = "" →
      (getTransactionAndBlockInfo env ep s chainId txHash).1 =
        .error (.blockNotFoundTryEndpoint tx.blockNumber tx.blockHash)) ∧
    (ep ≠ "" →
      (getTransactionAndBlockInfo env ep s chainId txHash).1 =
        .error (.blockNotFound tx.blockNumber tx.blockHash)) := by
  rcases hg : LRUMap.get s1.transactionCache txHash with ⟨o, txTouched⟩
  rw [hg] at htx
  simp only at htx
  subst htx
  rcases hgb : LRUMap.get s1.blockCache tx.blockHash with ⟨ob, blkTouched⟩
  rw [hgb] at hmiss
  simp only at hmiss
  rcases hmiss with rfl | rfl <;>
  · constructor <;> intro hep <;>
    · simp only [getTransactionAndBlockInfo, hp, hg,
        getTransactionAndBlockInfo.getBlockPart, hgb]
      rw [hfetch]
      simp [hep]

/-- C6 (amended): when the provider returns an empty transaction or block,
validation fails; the error explicitly suggests supplying a dedicated
chain RPC endpoint exactly when no `ethereumRpcEndpoint` is configured —
with an endpoint configured the error reports the failed load without the
suggestion. -/
theorem fetch_failure_suggests_endpoint (env : Env) (ep : String) (s : ValidatorState)
    (chainId txHash : String) :
    (∀ p s1, getEthProviderImpl ep s chainId = .ok (p, s1) →
      ((LRUMap.get s1.transactionCache txHash).1 = none ∨
        (LRUMap.get s1.transactionCache txHash).1 = some none) →
      env.getTransaction p txHash = none →
      (ep = "" →
        (getTransactionAndBlockInfo env ep s chainId txHash).1 =
          .error (.txNotFoundTryEndpoint txHash) ∧
        strContains (EthError.txNotFoundTryEndpoint txHash).message
          "Try providing an ethereum rpc endpoint" = true) ∧
      (ep ≠ "" →
        (getTransactionAndBlockInfo env ep s chainId txHash).1 =
          .error (.txNotFound txHash))) ∧
    (∀ p s1 tx, getEthProviderImpl ep s chainId = .ok (p, s1) →
      (LRUMap.get s1.transactionCache txHash).1 = some (some tx) →
      ((LRUMap.get s1.blockCache tx.blockHash).1 = none ∨
        (LRUMap.get s1.blockCache tx.blockHash).1 = some none) →
      env.getBlock p tx.blockHash = none →
      (ep = "" →
        (getTransactionAndBlockInfo env ep s chainId txHash).1 =
          .error (.blockNotFoundTryEndpoint tx.blockNumber tx.blockHash) ∧
        strContains (EthError.blockNotFoundTryEndpoint tx.blockNumber tx.blockHash).message
          "Try providing an ethereum rpc endpoint" = true) ∧
      (ep ≠ "" →
        (getTransactionAndBlockInfo env ep s chainId txHash).1 =
          .error (.blockNotFound tx.blockNumber tx.blockHash))) :=
  ⟨fun p s1 hp hmiss hfetch =>
     ⟨fun hep =>
        ⟨(txNotFound_error_case env ep s chainId txHash p s1 hp hmiss hfetch).1 hep,
          suggestion_in_txNotFoundTryEndpoint txHash⟩,
      fun hep => (txNotFound_error_case env ep s chainId txHash p s1 hp hmiss hfetch).2 hep⟩,
   fun p s1 tx hp htx hmiss hfetch =>
     ⟨fun hep =>
        ⟨(blockNotFound_error_case env ep s chainId txHash p s1 tx hp htx hmiss hfetch).1 hep,
          suggestion_in_blockNotFoundTryEndpoint tx.blockNumber tx.blockHash⟩,
      fun hep =>
        (blockNotFound_error_case env ep s chainId txHash p s1 tx hp htx hmiss hfetch).2 hep⟩⟩

theorem fetch_failure_suggests_endpoint_witness :
    ((getTransactionAndBlockInfo envEmpty "" mkValidatorState "eip155:1" "0xdead").1 =
      .error (.txNotFoundTryEndpoint "0xdead") ∧
      strContains (EthError.txNotFoundTryEndpoint "0xdead").message
        "Try providing an ethereum rpc endpoint" = true) ∧
    (getTransactionAndBlockInfo envNoBlock "e" sWithTx "eip155:1" "0xdead").1 =
      .error (.blockNotFound txFixture.blockNumber txFixture.blockHash) :=
  ⟨((fetch_failure_suggests_endpoint envEmpty "" mkValidatorState "eip155:1" "0xdead").1
      (Provider.defaultProvider "mainnet") sDefaultProvider (by decide)
      (Or.inl (by decide)) rfl).1 rfl,
   ((fetch_failure_suggests_endpoint envNoBlock "e" sWithTx "eip155:1" "0xdead").2
      (Provider.jsonRpc "e") sWithTx txFixture (by decide) (by decide)
      (Or.inl (by decide)) rfl).2 (by decide)⟩

/-- C6 counterexample: with a configured RPC endpoint `"e"`, a null
transaction makes validation fail with the plain load-failure error whose
message does not contain the dedicated-endpoint suggestion, refuting the
claim that every such failure carries the suggestion. -/
theorem endpoint_suggestion_counterexample :
    (getTransactionAndBlockInfo envEmpty "e" mkValidatorState "eip155:1" "0xdead").1 =
      .error (.txNotFound "0xdead") ∧
    strContains (EthError.txNotFound "0xdead").message
      "Try providing an ethereum rpc endpoint" = false := by decide

theorem strContains_four_middle (a c needleB needleD : String) :
    strContains (a ++ needleB ++ c ++ needleD) needleB = true := by
  apply strContains_of_parts _ _ a.data (c.data ++ needleD.data)
  show (((a ++ needleB) ++ c) ++ needleD).data = _
  simp [String.data_append]

theorem strContains_four_last (a c needleB needleD : String) :
    strContains (a ++ needleB ++ c ++ needleD) needleD = true := by
  apply strContains_of_parts _ _ ((a ++ needleB) ++ c).data []
  show (((a ++ needleB) ++ c) ++ needleD).data = _
  simp [String.data_append]

theorem strContains_three_middle (a b c : String) :
    strContains (a ++ b ++ c) b = true := by
  apply strContains_of_parts _ _ a.data c.data
  show ((a ++ b) ++ c).data = _
  simp [String.data_append]

theorem take13_of_append (p t : String) (h13 : 13 ≤ p.data.length) :
    (p ++ t).data.take 13 = p.data.take 13 := by
  rw [String.data_append, List.take_append_of_le_length h13]

theorem rootNotInTx_take13 (r : String) :
    (EthError.rootNotInTx r).message.data.take 13 = "The root CID ".data := by
  show ((("The root CID " ++ r) ++ " is not in the transaction")).data.take 13 = _
  rw [take13_of_append _ _ (by rw [String.data_append]; simp)]
  rw [take13_of_append _ _ (by decide)]
  decide

theorem blockNumberMismatch_take13 (a b : Nat) :
    (EthError.blockNumberMismatch a b).message.data.take 13 = "Block numbers".data := by
  show (((("Block numbers are not the same. AnchorProof blockNumber: " ++ toString a) ++
      ", eth txn blockNumber: ") ++ toString b)).data.take 13 = _
  rw [take13_of_append _ _ (by rw [String.data_append, String.data_append]; simp)]
  rw [take13_of_append _ _ (by rw [String.data_append]; simp)]
  rw [take13_of_append _ _ (by decide)]
  decide

theorem timestampMismatch_take13 (c d : Nat) :
    (EthError.timestampMismatch c d).message.data.take 13 = "Block timesta".data := by
  show (((("Block timestamps are not the same. AnchorProof blockTimestamp: " ++ toString c) ++
      ", eth txn blockTimestamp: ") ++ toString d)).data.take 13 = _
  rw [take13_of_append _ _ (by rw [String.data_append, String.data_append]; simp)]
  rw [take13_of_append _ _ (by rw [String.data_append]; simp)]
  rw [take13_of_append _ _ (by decide)]
  decide

/-- C5 (amended): each of the three proof-mismatch rejections raises a
field-specific error: the block-number and block-timestamp errors carry
and render both conflicting values (the proof value and the on-chain
value); the root mismatch raises a distinct error that identifies the
root field and renders the proof's root CID, but not the transaction's
data value; the three messages are pairwise distinct (their first 13
characters already identify the field). -/
theorem mismatch_errors_identify_field (env : Env) (ep : String) (s : ValidatorState)
    (proof : AnchorProof) (tx : Transaction) (block : Block)
    (hfetch : (getTransactionAndBlockInfo env ep s proof.chainId
      (proofTxHashString proof)).1 = .ok (tx, block)) :
    (jsStrictNeqNum (parseInt16 tx.data) (parseInt16 ("0x" ++ proof.root.hexDigest)) = true →
      (validateChainInclusion env ep s proof).1 = .error (.rootNotInTx proof.root.str) ∧
      strContains (EthError.rootNotInTx proof.root.str).message proof.root.str = true) ∧
    (jsStrictNeqNum (parseInt16 tx.data) (parseInt16 ("0x" ++ proof.root.hexDigest)) = false →
      proof.blockNumber ≠ tx.blockNumber →
      (validateChainInclusion env ep s proof).1 =
        .error (.blockNumberMismatch proof.blockNumber tx.blockNumber) ∧
      strContains (EthError.blockNumberMismatch proof.blockNumber tx.blockNumber).message
        (toString proof.blockNumber) = true ∧
      strContains (EthError.blockNumberMismatch proof.blockNumber tx.blockNumber).message
        (toString tx.blockNumber) = true) ∧
    (jsStrictNeqNum (parseInt16 tx.data) (parseInt16 ("0x" ++ proof.root.hexDigest)) = false →
      proof.blockNumber = tx.blockNumber →
      proof.blockTimestamp ≠ block.timestamp →
      (validateChainInclusion env ep s proof).1 =
        .error (.timestampMismatch proof.blockTimestamp block.timestamp) ∧
      strContains (EthError.timestampMismatch proof.blockTimestamp block.timestamp).message
        (toString proof.blockTimestamp) = true ∧
      strContains (EthError.timestampMismatch proof.blockTimestamp block.timestamp).message
        (toString block.timestamp) = true) ∧
    (∀ r a b, (EthError.rootNotInTx r).message ≠ (EthError.blockNumberMismatch a b).message) ∧
    (∀ r c d, (EthError.rootNotInTx r).message ≠ (EthError.timestampMismatch c d).message) ∧
    (∀ a b c d, (EthError.blockNumberMismatch a b).message ≠
      (EthError.timestampMismatch c d).message) := by
  rcases hh : getTransactionAndBlockInfo env ep s proof.chainId (proofTxHashString proof)
    with ⟨r, s1, calls⟩
  rw [hh] at hfetch
  simp only at hfetch
  subst hfetch
  refine ⟨?_, ?_, ?_, ?_, ?_, ?_⟩
  · intro hcond
    refine ⟨?_, strContains_three_middle "The root CID " proof.root.str
      " is not in the transaction"⟩
    simp only [validateChainInclusion, hh]
    simp [hcond]
  · intro hcond hbn
    refine ⟨?_, strContains_four_middle _ _ _ _, strContains_four_last _ _ _ _⟩
    simp only [validateChainInclusion, hh]
    simp [hcond, hbn]
  · intro hcond hbn hts
    refine ⟨?_, strContains_four_middle _ _ _ _, strContains_four_last _ _ _ _⟩
    simp only [validateChainInclusion, hh]
    simp [hcond, hbn, hts]
  · intro r a b hcontra
    have := congrArg (fun s => s.data.take 13) hcontra
    simp only [rootNotInTx_take13, blockNumberMismatch_take13] at this
    exact absurd this (by decide)
  · intro r c d hcontra
    have := congrArg (fun s => s.data.take 13) hcontra
    simp only [rootNotInTx_take13, timestampMismatch_take13] at this
    exact absurd this (by decide)
  · intro a b c d hcontra
    have := congrArg (fun s => s.data.take 13) hcontra
    simp only [blockNumberMismatch_take13, timestampMismatch_take13] at this
    exact absurd this (by decide)

theorem mismatch_errors_identify_field_witness :
    ((validateChainInclusion envFixture "e" mkValidatorState proofBadBn).1 =
      .error (.blockNumberMismatch 8 7) ∧
      strContains (EthError.blockNumberMismatch 8 7).message (toString (8 : Nat)) = true ∧
      strContains (EthError.blockNumberMismatch 8 7).message (toString (7 : Nat)) = true) ∧
    ((validateChainInclusion envFixture "e" mkValidatorState proofBadTs).1 =
      .error (.timestampMismatch 100 99) ∧
      strContains (EthError.timestampMismatch 100 99).message (toString (100 : Nat)) = true ∧
      strContains (EthError.timestampMismatch 100 99).message (toString (99 : Nat)) = true) ∧
    ((validateChainInclusion envFixture "e" mkValidatorState proofBadRoot).1 =
      .error (.rootNotInTx "bafyroot1") ∧
      strContains (EthError.rootNotInTx "bafyroot1").message "bafyroot1" = true) :=
  ⟨(mismatch_errors_identify_field envFixture "e" mkValidatorState proofBadBn txFixture
      blockFixture (by decide)).2.1 (by decide) (by decide),
   (mismatch_errors_identify_field envFixture "e" mkValidatorState proofBadTs txFixture
      blockFixture (by decide)).2.2.1 (by decide) (by decide) (by decide),
   (mismatch_errors_identify_field envFixture "e" mkValidatorState proofBadRoot txFixture
      blockFixture (by decide)).1 (by decide)⟩

/-- C5 counterexample: at a concrete root mismatch (transaction data
`"0x0abc"`, numeric value 2748), the raised error's message contains
neither the on-chain payload digits `"0abc"` nor its numeric value
`"2748"` — the root-mismatch error does not contain both conflicting
values, refuting the claim for the root field. -/
theorem root_mismatch_error_counterexample :
    (validateChainInclusion envFixture "e" mkValidatorState proofBadRoot).1 =
      .error (.rootNotInTx "bafyroot1") ∧
    txFixture.data = "0x0abc" ∧
    parseInt16 txFixture.data = some 2748 ∧
    strContains (EthError.rootNotInTx "bafyroot1").message "0abc" = false ∧
    strContains (EthError.rootNotInTx "bafyroot1").message "2748" = false := by decide

/-- C3 counterexample: with an `ethereumRpcEndpoint` configured, provider
resolution succeeds both for `eip155:5` (an eip155 reference absent from
the static table, claimed to fail with "no provider available") and for
`eip1559:1` (whose namespace part is not `eip155`, claimed to always
fail): the endpoint branch precedes the table lookup, and the namespace
check is a `startsWith` check. -/
theorem provider_resolution_counterexample :
    (getEthProviderImpl "http:x" mkValidatorState "eip155:5").isOk = true ∧
    (getEthProviderImpl "http:x" mkValidatorState "eip1559:1").isOk = true := by decide

/-- C3 (amended): on a providers-cache miss, an identifier that does not
start with `"eip155"` always fails with the unsupported-namespace error;
when no RPC endpoint is configured and the fixed chain id (if any) does
not conflict, an identifier starting with `"eip155"` that is not a key of
the static table fails with the "No ethereum provider available for
chainId" error; with an RPC endpoint configured such an identifier
resolves successfully to a JSON-RPC provider instead. -/
theorem getEthProvider_resolution (ep chain : String) (s : ValidatorState)
    (hmiss : (LRUMap.get s.providersCache chain).1 = none) :
    (jsStartsWith chain "eip155" = false →
      getEthProviderImpl ep s chain = .error (.unsupportedNamespace chain)) ∧
    (jsStartsWith chain "eip155" = true →
      (s.chainIdField = none ∨ s.chainIdField = some chain) →
      ep = "" →
      ETH_CHAIN_ID_MAPPINGS.find? (fun e => e.1 = chain) = none →
      getEthProviderImpl ep s chain = .error (.noProvider chain)) ∧
    (jsStartsWith chain "eip155" = true →
      (s.chainIdField = none ∨ s.chainIdField = some chain) →
      ep ≠ "" →
      getEthProviderImpl ep s chain =
        .ok (Provider.jsonRpc ep,
          { s with providersCache :=
              LRUMap.set s.providersCache chain (Provider.jsonRpc ep) })) := by
  rcases hh : LRUMap.get s.providersCache chain with ⟨o, t⟩
  rw [hh] at hmiss
  simp only at hmiss
  subst hmiss
  refine ⟨?_, ?_, ?_⟩
  · intro hns
    simp [getEthProviderImpl, hh, hns]
  · intro hns hcfg hep htab
    rcases hcfg with hcfg | hcfg <;>
      simp [getEthProviderImpl, hh, hns, hcfg, hep,
        getEthProviderImpl.getEthProviderBuild, htab]
  · intro hns hcfg hep
    rcases hcfg with hcfg | hcfg <;>
      simp [getEthProviderImpl, hh, hns, hcfg, hep,
        getEthProviderImpl.getEthProviderBuild]

theorem getEthProvider_resolution_witness :
    getEthProviderImpl "" mkValidatorState "foo:1" =
      .error (.unsupportedNamespace "foo:1") ∧
    getEthProviderImpl "" mkValidatorState "eip155:5" =
      .error (.noProvider "eip155:5") ∧
    getEthProviderImpl "http:x" mkValidatorState "eip155:5" =
      .ok (Provider.jsonRpc "http:x",
        { mkValidatorState with providersCache :=
            (LRUMap.set mkValidatorState.providersCache "eip155:5"
              (Provider.jsonRpc "http:x")) }) :=
  ⟨(getEthProvider_resolution "" "foo:1" mkValidatorState (by decide)).1 (by decide),
   (getEthProvider_resolution "" "eip155:5" mkValidatorState (by decide)).2.1 (by decide)
      (Or.inl rfl) rfl (by decide),
   (getEthProvider_resolution "http:x" "eip155:5" mkValidatorState (by decide)).2.2
      (by decide) (Or.inl rfl) (by decide)⟩
